import Mathlib

/-!
# Flare Africa Community blog: content schema and RSS feed endpoint

Shallow embedding of `src/content/config.ts` (the `blog` collection schema) and
`src/pages/rss.xml.js` (the `GET` endpoint that builds the RSS feed), followed by
the properties of the feed stated in the specification.
-/

namespace FlareBlog

/-! ## Content schema (`src/content/config.ts`) -/

/-- Front-matter value of a raw content entry, seen as a JavaScript value. -/
inductive Value where
  | null
  | bool (b : Bool)
  | num (n : Int)
  | str (s : String)
  | date (iso : String)
  | arr (xs : List Value)
  | obj (fields : List (String × Value))

/-- Raw content entry: the front-matter object, a finite map from keys to values.
A key that is absent reads as `undefined` (here `none`). -/
abbrev RawEntry := List (String × Value)

/-- Name of the parsed type of a value, as the schema library reports it in an issue. -/
def Value.typeName : Value → String
  | .null => "null"
  | .bool _ => "boolean"
  | .num _ => "number"
  | .str _ => "string"
  | .date _ => "date"
  | .arr _ => "array"
  | .obj _ => "object"

/-- Validation issue: the offending field and the type that was received there. -/
structure Issue where
  path : String
  received : String
  deriving DecidableEq, Repr

/-- The `z.string()` schema applied to the value found at `path`: it accepts exactly
the values of type string, whatever their content. -/
def zString (path : String) : Option Value → Except Issue String
  | some (.str s) => .ok s
  | some v => .error ⟨path, v.typeName⟩
  | none => .error ⟨path, "undefined"⟩

/-- The issue of a failed field, if any. -/
def issueOf : Except Issue String → List Issue
  | .ok _ => []
  | .error i => [i]

/-- Validated data of a blog post: the object produced by the `blog` schema. -/
structure PostData where
  title : String
  description : String
  date : String
  author : String
  summary : String
  deriving DecidableEq, Repr

/-- The schema of the `blog` collection:
`z.object({ title, description, date, author, summary })`, each field `z.string()`.
Keys outside the shape are dropped; every failing field contributes an issue. -/
def blog.schema (raw : RawEntry) : Except (List Issue) PostData :=
  match zString "title" (raw.lookup "title"),
        zString "description" (raw.lookup "description"),
        zString "date" (raw.lookup "date"),
        zString "author" (raw.lookup "author"),
        zString "summary" (raw.lookup "summary") with
  | .ok t, .ok d, .ok dt, .ok a, .ok s =>
      .ok { title := t, description := d, date := dt, author := a, summary := s }
  | r1, r2, r3, r4, r5 =>
      .error (issueOf r1 ++ issueOf r2 ++ issueOf r3 ++ issueOf r4 ++ issueOf r5)

/-- The five keys of the `blog` schema. -/
def blogFields : List String := ["title", "description", "date", "author", "summary"]

/-- Entry of the `blog` collection as returned by the collection query. -/
structure Post where
  id : String
  slug : String
  body : String
  data : PostData
  deriving DecidableEq, Repr

/-! ## URLs (`context.site` and `new URL(reference, base)`) -/

/-- Parsed absolute URL of a hierarchical scheme, as held by `context.site`:
the origin (scheme, host, port) and the pathname, which starts with a slash. -/
structure URL where
  origin : String
  pathname : String
  deriving DecidableEq, Repr

/-- Serialisation of a URL, which is also its string conversion in a template literal. -/
def URL.href (u : URL) : String := u.origin ++ u.pathname

/-- Directory part of a pathname: everything up to and including its last slash. -/
def dirname (p : String) : String :=
  ⟨(p.data.reverse.dropWhile (fun c => c != '/')).reverse⟩

/-- Model of `new URL(reference, base)` for a relative reference that carries no scheme,
query or fragment and is already in serialised form (no character the URL parser
would encode and no dot segment), as `rss.xml` and `/blog/my-post/` are: a reference
starting with a slash replaces the whole path of the base, any other reference replaces
the last segment of that path. The origin of the base is kept in both cases. -/
def URL.resolve (reference : String) (base : URL) : URL :=
  match reference.data with
  | '/' :: _ => { origin := base.origin, pathname := reference }
  | _ => { origin := base.origin, pathname := dirname base.pathname ++ reference }

/-- The site base as it is written without a trailing slash:
`https://example.com` for the URL whose serialisation is `https://example.com/`. -/
def URL.base (u : URL) : String :=
  if u.pathname.data.getLast? = some '/' then u.origin ++ ⟨u.pathname.data.dropLast⟩
  else u.origin ++ u.pathname

/-! ## Feed endpoint (`src/pages/rss.xml.js`) -/

/-- The constants `SITE_TITLE` and `SITE_DESCRIPTION` imported from `../const`;
their values are parameters of the development. -/
structure Const where
  SITE_TITLE : String
  SITE_DESCRIPTION : String
  deriving DecidableEq, Repr

/-- The part of the endpoint context that `GET` reads: the configured site, if any. -/
structure APIContext where
  site : Option URL
  deriving DecidableEq, Repr

/-- One entry of the `items` array handed to the feed library. -/
structure RSSFeedItem where
  title : String
  pubDate : String
  description : String
  link : String
  categories : List String
  customData : String
  deriving DecidableEq, Repr

/-- The argument record that `GET` hands to the feed library `rss`,
which serialises it into the response body. It stands for the feed document. -/
structure RSSOptions where
  title : String
  description : String
  site : URL
  xmlns : List (String × String)
  customData : String
  items : List RSSFeedItem
  deriving DecidableEq, Repr

/-- The arrow function of `posts.map(...)`: projection of a post into a feed item. -/
def toItem (post : Post) : RSSFeedItem :=
  { title := post.data.title
    pubDate := post.data.date
    description := post.data.description
    link := "/blog/" ++ post.slug ++ "/"
    categories := [post.data.author, "Flare Network", "Web3"]
    customData := "<dc:creator>" ++ post.data.author ++ "</dc:creator>" }

/-- The channel level `customData` template literal, given the serialised self link. -/
def channelCustomData (selfHref : String) : String :=
  "<language>en-us</language>\n      <atom:link href=\"" ++ selfHref
    ++ "\" rel=\"self\" type=\"application/rss+xml\" />"

/-- The two tests of the feed library that an item handed over by `GET` can fail.
`dateParses` tells that `new Date(pubDate)` has a time value; the date grammar belongs
to the platform. `customDataParses` tells that the XML reader of the library gets
through the custom data of an item (it gives up on an unclosed comment, for example);
for a version of the library that splices the custom data in as text it is constantly
true. Both are parameters. -/
structure FeedLibrary where
  dateParses : String → Bool
  customDataParses : String → Bool

/-- The feed library `rss`, as far as a caller observes whether it returns: it
validates its argument and throws on an item whose `pubDate` does not parse as a date
or whose custom data it cannot read. Every other check of the library holds for a
record of this type. An accepted record is serialised into the response body; the
record stands for that document. -/
def rss (lib : FeedLibrary) (options : RSSOptions) : Except String RSSOptions :=
  if options.items.all (fun item =>
      lib.dateParses item.pubDate && lib.customDataParses item.customData)
  then .ok options
  else .error "[RSS] invalid item"

/-- The endpoint `GET(context)`. The collection query is a parameter; it is asked
for the collection `blog`. Without a configured site `new URL('rss.xml', undefined)`
throws while the argument of `rss` is built, which is the first error result; the
second one is the rejection by `rss` itself. -/
def GET (lib : FeedLibrary) (c : Const) (getCollection : String → List Post)
    (context : APIContext) : Except String RSSOptions :=
  let posts := getCollection "blog"
  match context.site with
  | none => .error "Invalid URL"
  | some site =>
    rss lib
      { title := c.SITE_TITLE
        description := c.SITE_DESCRIPTION
        site := site
        xmlns := [("atom", "http://www.w3.org/2005/Atom"),
                  ("dc", "http://purl.org/rss/1.0/modules/dc/")]
        customData := channelCustomData (URL.resolve "rss.xml" site).href
        items := posts.map toItem }

/-- Characters that the URL parser leaves as they are inside a path segment:
letters and digits of ASCII and `-`, `_`, `.`, `~`. -/
def isPathChar (c : Char) : Bool :=
  c.isAlphanum || c == '-' || c == '_' || c == '.' || c == '~'

/-- Plain path text: segments separated by single slashes, each segment non-empty, made
of path characters and not starting with a dot, the text ending inside a segment.
The flag tells that a segment starts at the head of the text. -/
def plainSegments : Bool → List Char → Bool
  | segmentStart, [] => !segmentStart
  | true, c :: cs => isPathChar c && c != '.' && plainSegments false cs
  | false, c :: cs =>
    if c = '/' then plainSegments true cs else isPathChar c && plainSegments false cs

/-- A slug that is plain path text, such as `my-post` or `2024/my-post`. -/
def plainSlug (slug : String) : Bool := plainSegments true slug.data

/-- Links in canonical form: plain path text between one leading and one trailing
slash, such as `/blog/my-post/`. On such a link the feed library has no slash to add or
to collapse and the URL parser has nothing to encode and no dot segment to remove, so
that `URL.resolve` is what `new URL` computes for it. -/
def canonicalLink (link : String) : Bool :=
  match link.data with
  | '/' :: cs => cs.getLast? = some '/' && plainSegments true cs.dropLast
  | _ => false

/-- Permalink of an item in the feed document: the feed library brings a relative item
link into canonical form and resolves it against the site of the feed. The value is
given for links that are in canonical form already; `none` stands for every other
link, about whose permalink nothing is said here. -/
def permalink (site : URL) (item : RSSFeedItem) : Option String :=
  if canonicalLink item.link then some (URL.resolve item.link site).href else none

/-! ## Well-formedness of XML elements -/

/-- Characters that may start an XML name. -/
def isNameStart (c : Char) : Bool := c.isAlpha || c == '_' || c == ':'

/-- Characters that may continue an XML name. -/
def isNameChar (c : Char) : Bool := isNameStart c || c.isDigit || c == '-' || c == '.'

/-- XML names: a start character followed by name characters. -/
def isName : List Char → Bool
  | [] => false
  | c :: cs => isNameStart c && cs.all isNameChar

/-- The text between `&` and `;` of a reference: an entity name or a character number. -/
def isReference : List Char → Bool
  | '#' :: d :: ds => (d :: ds).all Char.isAlphanum
  | cs => isName cs

/-- The element name at the head of the text of a start tag. -/
def tagName (tag : List Char) : List Char := tag.takeWhile (fun c => !c.isWhitespace)

/-- Scanner for one XML element over the remaining input and the stack of open element
names. Start tags push their name, end tags must match the innermost open name, a
reference must be complete, character data must stand inside an element and contains
neither `<` nor `&`, and nothing may follow the end of the outermost element.
Attributes are not inspected beyond the absence of `<` in a tag. Every step reads at
least one character, so a fuel above the input length suffices. -/
def scanElement : Nat → List Char → List (List Char) → Bool
  | 0, _, _ => false
  | _ + 1, [], _ => false
  | fuel + 1, c :: cs, stack =>
    if c = '<' then
      match cs with
      | '/' :: cs1 =>
        match cs1.span (fun x => x != '>'), stack with
        | (name, '>' :: rest), top :: below =>
          name == top && (if below.isEmpty then rest.isEmpty else scanElement fuel rest below)
        | _, _ => false
      | _ =>
        match cs.span (fun x => x != '>') with
        | (tag, '>' :: rest) =>
          if tag.getLast? = some '/' then
            isName (tagName tag.dropLast) && !tag.contains '<'
              && (if stack.isEmpty then rest.isEmpty else scanElement fuel rest stack)
          else
            isName (tagName tag) && !tag.contains '<'
              && scanElement fuel rest (tagName tag :: stack)
        | _ => false
    else if c = '&' then
      match cs.span (fun x => x != ';') with
      | (name, ';' :: rest) =>
        !stack.isEmpty && isReference name && scanElement fuel rest stack
      | _ => false
    else
      !stack.isEmpty && scanElement fuel cs stack

/-- A string is a well-formed XML element. -/
def wellFormedElement (s : String) : Bool := scanElement (s.data.length + 1) s.data []

/-- A post with its summary blanked: what remains is everything but the summary. -/
def eraseSummary (post : Post) : Post :=
  { post with data := { post.data with summary := "" } }

/-! ## Auxiliary facts -/

theorem data_getLast_split (p : String) (h : p.data.getLast? = some '/') :
    p.data = p.data.dropLast ++ ['/'] := by
  have := List.dropLast_append_getLast? '/' (by simpa using h)
  exact this.symm

theorem dirname_of_trailing_slash (p : String) (h : p.data.getLast? = some '/') :
    dirname p = p := by
  apply String.ext
  have hs := data_getLast_split p h
  show (p.data.reverse.dropWhile (fun c => c != '/')).reverse = p.data
  rw [hs]
  simp [List.dropWhile]

theorem dropLast_append_slash (p : String) (h : p.data.getLast? = some '/') :
    (⟨p.data.dropLast⟩ : String) ++ "/" = p := by
  apply String.ext
  have hs := data_getLast_split p h
  simp only [String.data_append]
  exact hs.symm

theorem toItem_eraseSummary (post : Post) : toItem (eraseSummary post) = toItem post := rfl

/-! ## Feed items -/

theorem rss_ok_iff (lib : FeedLibrary) (options feed : RSSOptions) :
    rss lib options = .ok feed
      ↔ (feed = options ∧ ∀ item ∈ options.items,
            lib.dateParses item.pubDate = true
              ∧ lib.customDataParses item.customData = true) := by
  unfold rss
  by_cases h : options.items.all (fun item =>
      lib.dateParses item.pubDate && lib.customDataParses item.customData) = true
  · rw [if_pos h]
    have h2 : ∀ item ∈ options.items,
        lib.dateParses item.pubDate = true ∧ lib.customDataParses item.customData = true := by
      intro item hitem
      have := List.all_eq_true.1 h item hitem
      simpa using this
    constructor
    · intro heq
      injection heq with heq
      exact ⟨heq.symm, h2⟩
    · rintro ⟨rfl, _⟩
      rfl
  · rw [if_neg h]
    constructor
    · intro heq
      cases heq
    · rintro ⟨_, h2⟩
      refine absurd (List.all_eq_true.2 ?_) h
      intro item hitem
      simpa using h2 item hitem

theorem GET_ok_iff (lib : FeedLibrary) (c : Const)
    (getCollection : String → List Post) (site : URL) (feed : RSSOptions) :
    GET lib c getCollection ⟨some site⟩ = .ok feed
      ↔ (feed = { title := c.SITE_TITLE
                  description := c.SITE_DESCRIPTION
                  site := site
                  xmlns := [("atom", "http://www.w3.org/2005/Atom"),
                            ("dc", "http://purl.org/rss/1.0/modules/dc/")]
                  customData := channelCustomData (URL.resolve "rss.xml" site).href
                  items := (getCollection "blog").map toItem }
          ∧ ∀ post ∈ getCollection "blog",
              lib.dateParses post.data.date = true
                ∧ lib.customDataParses
                    ("<dc:creator>" ++ post.data.author ++ "</dc:creator>") = true) := by
  show rss lib _ = .ok feed ↔ _
  rw [rss_ok_iff]
  constructor
  · rintro ⟨hfeed, hall⟩
    refine ⟨hfeed, ?_⟩
    intro post hpost
    exact hall (toItem post) (List.mem_map_of_mem toItem hpost)
  · rintro ⟨hfeed, hall⟩
    refine ⟨hfeed, ?_⟩
    intro item hitem
    obtain ⟨post, hpost, rfl⟩ := List.mem_map.1 hitem
    exact hall post hpost

/-- A post whose date does not parse makes `GET` fail, whatever the site. -/
theorem GET_rejects_unparsed_date (lib : FeedLibrary) (c : Const)
    (getCollection : String → List Post) (context : APIContext)
    (post : Post) (hpost : post ∈ getCollection "blog")
    (hdate : lib.dateParses post.data.date = false) :
    ∃ message, GET lib c getCollection context = .error message := by
  cases hres : GET lib c getCollection context with
  | error message => exact ⟨message, rfl⟩
  | ok feed =>
    obtain ⟨site⟩ | ⟨site⟩ := context
    · cases hres
    · have hall := (((GET_ok_iff _ _ _ _ _).1 hres).2 post hpost).1
      rw [hdate] at hall
      cases hall

theorem canonicalLink_blog (slug : String) (hslug : plainSlug slug = true) :
    canonicalLink ("/blog/" ++ slug ++ "/") = true := by
  have hdata : ("/blog/" ++ slug ++ "/").data
      = '/' :: (('b' :: 'l' :: 'o' :: 'g' :: '/' :: slug.data) ++ ['/']) := by
    simp [String.data_append]
  unfold canonicalLink
  rw [hdata]
  have hlast : (('b' :: 'l' :: 'o' :: 'g' :: '/' :: slug.data) ++ ['/']).getLast? = some '/' :=
    List.getLast?_concat _
  have hdrop : (('b' :: 'l' :: 'o' :: 'g' :: '/' :: slug.data) ++ ['/']).dropLast
      = 'b' :: 'l' :: 'o' :: 'g' :: '/' :: slug.data := List.dropLast_concat
  simp only [hlast, hdrop, decide_True, Bool.true_and]
  have hb : (isPathChar 'b' && 'b' != '.') = true := by decide
  have hl : isPathChar 'l' = true := by decide
  have ho : isPathChar 'o' = true := by decide
  have hg : isPathChar 'g' = true := by decide
  simp only [plainSegments, hb, hl, ho, hg, Bool.true_and, if_true]
  exact hslug

/-- C1: whenever `GET` returns a feed, its items are the projections of the posts of the
`blog` collection, one per post and in the order of the query: the counts agree and
the item at each index is the projection of the post at that index, which carries the
title, the date, the description, the link built from the slug, the three categories
and the creator element of that post. With a site in the context, `GET` returns a feed
exactly when the feed library accepts the item of every post: its date parses and its
creator element is read. -/
theorem GET_items_one_per_post (lib : FeedLibrary) (c : Const)
    (getCollection : String → List Post) (site : URL) :
    ((∃ feed, GET lib c getCollection ⟨some site⟩ = .ok feed)
        ↔ ∀ post ∈ getCollection "blog",
            lib.dateParses post.data.date = true
              ∧ lib.customDataParses
                  ("<dc:creator>" ++ post.data.author ++ "</dc:creator>") = true)
      ∧ ∀ feed, GET lib c getCollection ⟨some site⟩ = .ok feed →
          feed.items = (getCollection "blog").map (fun post =>
              { title := post.data.title
                pubDate := post.data.date
                description := post.data.description
                link := "/blog/" ++ post.slug ++ "/"
                categories := [post.data.author, "Flare Network", "Web3"]
                customData := "<dc:creator>" ++ post.data.author ++ "</dc:creator>" })
            ∧ feed.items.length = (getCollection "blog").length
            ∧ ∀ i : Nat, feed.items[i]? = ((getCollection "blog")[i]?).map (fun post =>
              { title := post.data.title
                pubDate := post.data.date
                description := post.data.description
                link := "/blog/" ++ post.slug ++ "/"
                categories := [post.data.author, "Flare Network", "Web3"]
                customData := "<dc:creator>" ++ post.data.author ++ "</dc:creator>" }) := by
  constructor
  · constructor
    · rintro ⟨feed, hget⟩
      exact ((GET_ok_iff _ _ _ _ _).1 hget).2
    · intro hall
      exact ⟨_, (GET_ok_iff _ _ _ _ _).2 ⟨rfl, hall⟩⟩
  · intro feed hget
    obtain ⟨rfl, _⟩ := (GET_ok_iff _ _ _ _ _).1 hget
    refine ⟨rfl, ?_, ?_⟩
    · simp
    · intro i
      simp only [List.getElem?_map]
      rfl

/-- C1 at a collection of two posts whose dates parse: `GET` returns the feed with the
two projected items in the order of the collection. -/
theorem GET_items_one_per_post_witness :
    ∃ feed, GET ⟨fun date => date == "2024-01-01" || date == "2024-02-01", fun _ => true⟩
          ⟨"Flare Africa", "Community blog"⟩
          (fun _ => [⟨"b.md", "b", "", ⟨"B", "second", "2024-02-01", "Ada", "s"⟩⟩,
                     ⟨"a.md", "a", "", ⟨"A", "first", "2024-01-01", "Bob", "s"⟩⟩])
          ⟨some ⟨"https://example.com", "/"⟩⟩ = .ok feed
      ∧ feed.items
          = [⟨"B", "2024-02-01", "second", "/blog/b/", ["Ada", "Flare Network", "Web3"],
              "<dc:creator>Ada</dc:creator>"⟩,
             ⟨"A", "2024-01-01", "first", "/blog/a/", ["Bob", "Flare Network", "Web3"],
              "<dc:creator>Bob</dc:creator>"⟩] := by
  have h := GET_items_one_per_post ⟨fun date => date == "2024-01-01" || date == "2024-02-01", fun _ => true⟩
    ⟨"Flare Africa", "Community blog"⟩
    (fun _ => [⟨"b.md", "b", "", ⟨"B", "second", "2024-02-01", "Ada", "s"⟩⟩,
               ⟨"a.md", "a", "", ⟨"A", "first", "2024-01-01", "Bob", "s"⟩⟩])
    ⟨"https://example.com", "/"⟩
  obtain ⟨feed, hget⟩ := h.1.2 (by decide)
  exact ⟨feed, hget, ((h.2 feed hget).1).trans (by decide)⟩

/-- C2, as the code has it: for a post of the collection whose slug is plain path text,
the link of its item in a feed returned by `GET` is `/blog/`, the slug and a slash, and
the permalink is that link behind the origin of the site, whatever the path of the
site; for a site whose path is the root this is the site base followed by `/blog/`,
the slug and a trailing slash. -/
theorem permalink_of_site (lib : FeedLibrary) (c : Const)
    (getCollection : String → List Post) (site : URL) (feed : RSSOptions)
    (hget : GET lib c getCollection ⟨some site⟩ = .ok feed)
    (post : Post) (hpost : post ∈ getCollection "blog")
    (hslug : plainSlug post.slug = true) :
    toItem post ∈ feed.items
      ∧ (toItem post).link = "/blog/" ++ post.slug ++ "/"
      ∧ permalink feed.site (toItem post)
          = some (site.origin ++ "/blog/" ++ post.slug ++ "/")
      ∧ (site.pathname = "/" →
          permalink feed.site (toItem post)
            = some (site.base ++ "/blog/" ++ post.slug ++ "/")) := by
  obtain ⟨rfl, _⟩ := (GET_ok_iff _ _ _ _ _).1 hget
  have hperm : permalink site (toItem post)
      = some (site.origin ++ "/blog/" ++ post.slug ++ "/") := by
    have hser : canonicalLink (toItem post).link = true := canonicalLink_blog _ hslug
    unfold permalink
    rw [if_pos hser]
    simp [toItem, URL.resolve, URL.href, String.data_append, String.append_assoc]
  refine ⟨List.mem_map_of_mem toItem hpost, rfl, hperm, ?_⟩
  intro hroot
  have hbase : site.base = site.origin := by
    simp [URL.base, hroot]
  rw [hbase]
  exact hperm

/-- C2 at the site `https://example.com` and the slug `my-post`: the permalink is
exactly `https://example.com/blog/my-post/`. -/
theorem permalink_of_site_witness :
    GET ⟨fun date => date == "2024-01-01", fun _ => true⟩ ⟨"Flare Africa", "Community blog"⟩
        (fun _ => [⟨"my-post.md", "my-post", "", ⟨"t", "d", "2024-01-01", "Ada", "s"⟩⟩])
        ⟨some ⟨"https://example.com", "/"⟩⟩
      = .ok { title := "Flare Africa"
              description := "Community blog"
              site := ⟨"https://example.com", "/"⟩
              xmlns := [("atom", "http://www.w3.org/2005/Atom"),
                        ("dc", "http://purl.org/rss/1.0/modules/dc/")]
              customData := channelCustomData "https://example.com/rss.xml"
              items := [toItem ⟨"my-post.md", "my-post", "", ⟨"t", "d", "2024-01-01", "Ada", "s"⟩⟩] }
    ∧ plainSlug "my-post" = true
    ∧ (⟨"https://example.com", "/"⟩ : URL).pathname = "/"
    ∧ permalink ⟨"https://example.com", "/"⟩
        (toItem ⟨"my-post.md", "my-post", "", ⟨"t", "d", "2024-01-01", "Ada", "s"⟩⟩)
      = some "https://example.com/blog/my-post/" := by
  have hget : GET ⟨fun date => date == "2024-01-01", fun _ => true⟩ ⟨"Flare Africa", "Community blog"⟩
      (fun _ => [⟨"my-post.md", "my-post", "", ⟨"t", "d", "2024-01-01", "Ada", "s"⟩⟩])
      ⟨some ⟨"https://example.com", "/"⟩⟩
    = .ok { title := "Flare Africa"
            description := "Community blog"
            site := ⟨"https://example.com", "/"⟩
            xmlns := [("atom", "http://www.w3.org/2005/Atom"),
                      ("dc", "http://purl.org/rss/1.0/modules/dc/")]
            customData := channelCustomData "https://example.com/rss.xml"
            items := [toItem ⟨"my-post.md", "my-post", "", ⟨"t", "d", "2024-01-01", "Ada", "s"⟩⟩] } := by
    rw [GET_ok_iff]
    exact ⟨by decide, by decide⟩
  have h := permalink_of_site _ _ _ _ _ hget
    ⟨"my-post.md", "my-post", "", ⟨"t", "d", "2024-01-01", "Ada", "s"⟩⟩
    (List.mem_singleton.2 rfl) (by decide)
  exact ⟨hget, by decide, rfl, (h.2.2.2 rfl).trans (by decide)⟩

/-- C2 fails as stated at the site `https://example.com/docs`: the permalink of the post
with slug `my-post` is `https://example.com/blog/my-post/`, which is not the site base
followed by `/blog/my-post/`. -/
theorem permalink_not_under_site_path :
    permalink ⟨"https://example.com", "/docs"⟩
        (toItem ⟨"my-post.md", "my-post", "", ⟨"t", "d", "2024-01-01", "Ada", "s"⟩⟩)
      = some "https://example.com/blog/my-post/"
    ∧ (⟨"https://example.com", "/docs"⟩ : URL).base ++ "/blog/" ++ "my-post" ++ "/"
      = "https://example.com/docs/blog/my-post/"
    ∧ permalink ⟨"https://example.com", "/docs"⟩
        (toItem ⟨"my-post.md", "my-post", "", ⟨"t", "d", "2024-01-01", "Ada", "s"⟩⟩)
      ≠ some ((⟨"https://example.com", "/docs"⟩ : URL).base ++ "/blog/" ++ "my-post" ++ "/") := by
  decide

/-- C3, as the code has it: the category list of the item of a post starts with the
author of the post, followed by the two fixed entries `Flare Network` and `Web3`, which
is the last one. -/
theorem categories_author_first (post : Post) :
    (toItem post).categories = [post.data.author, "Flare Network", "Web3"]
      ∧ (toItem post).categories.head? = some post.data.author
      ∧ (toItem post).categories.getLast? = some "Web3" := by
  simp [toItem]

/-- C3 fails as stated for a post whose author is `Ada`: the category list is not
`Flare Network`, `Web3`, `Ada`, and its last entry is not the author. -/
theorem categories_author_not_last :
    (toItem ⟨"hello.md", "hello", "", ⟨"Hello", "d", "2024-01-01", "Ada", "s"⟩⟩).categories
        ≠ ["Flare Network", "Web3", "Ada"]
      ∧ (toItem ⟨"hello.md", "hello", "", ⟨"Hello", "d", "2024-01-01", "Ada", "s"⟩⟩).categories.getLast?
        ≠ some "Ada" := by
  decide

/-- C4: the category list of the item of a post has length 3 and is a rearrangement of
the author of the post and the two fixed entries `Flare Network` and `Web3`: each of the
three fills one position, whatever the author is. -/
theorem categories_length_and_entries (post : Post) :
    (toItem post).categories.length = 3
      ∧ List.Perm (toItem post).categories ["Flare Network", "Web3", post.data.author]
      ∧ ∀ x, x ∈ (toItem post).categories
          ↔ (x = post.data.author ∨ x = "Flare Network" ∨ x = "Web3") := by
  refine ⟨rfl, ?_, ?_⟩
  · show List.Perm [post.data.author, "Flare Network", "Web3"]
      ["Flare Network", "Web3", post.data.author]
    exact @List.perm_append_comm _ [post.data.author] ["Flare Network", "Web3"]
  · intro x
    simp [toItem]

/-! ## Content schema -/

theorem zString_ok_iff (path : String) (v : Option Value) (s : String) :
    zString path v = .ok s ↔ v = some (Value.str s) := by
  unfold zString
  split <;> simp_all

theorem blogSchema_ok_iff (raw : RawEntry) (p : PostData) :
    blog.schema raw = .ok p ↔
      (raw.lookup "title" = some (Value.str p.title)
        ∧ raw.lookup "description" = some (Value.str p.description)
        ∧ raw.lookup "date" = some (Value.str p.date)
        ∧ raw.lookup "author" = some (Value.str p.author)
        ∧ raw.lookup "summary" = some (Value.str p.summary)) := by
  constructor
  · intro h
    unfold blog.schema at h
    split at h
    · rename_i t d dt a s h1 h2 h3 h4 h5
      injection h with h
      subst h
      exact ⟨(zString_ok_iff _ _ _).1 h1, (zString_ok_iff _ _ _).1 h2,
        (zString_ok_iff _ _ _).1 h3, (zString_ok_iff _ _ _).1 h4, (zString_ok_iff _ _ _).1 h5⟩
    · cases h
  · rintro ⟨h1, h2, h3, h4, h5⟩
    cases p
    simp_all [blog.schema, zString]

theorem issueOf_nil (r : Except Issue String) (h : issueOf r = []) : ∃ s, r = .ok s := by
  cases r with
  | ok s => exact ⟨s, rfl⟩
  | error i => simp [issueOf] at h

theorem blogSchema_error_nonempty (raw : RawEntry) (issues : List Issue)
    (h : blog.schema raw = .error issues) : issues ≠ [] := by
  unfold blog.schema at h
  split at h
  · cases h
  · rename_i hne
    injection h with h
    subst h
    intro hnil
    simp only [List.append_eq_nil] at hnil
    obtain ⟨⟨⟨⟨h1, h2⟩, h3⟩, h4⟩, h5⟩ := hnil
    obtain ⟨t, ht⟩ := issueOf_nil _ h1
    obtain ⟨d, hd⟩ := issueOf_nil _ h2
    obtain ⟨dt, hdt⟩ := issueOf_nil _ h3
    obtain ⟨a, ha⟩ := issueOf_nil _ h4
    obtain ⟨s, hs⟩ := issueOf_nil _ h5
    exact hne t d dt a s ht hd hdt ha hs

/-- C5: the schema of the `blog` collection accepts a raw entry exactly when each of the
five keys title, description, date, author and summary is present with a text value;
otherwise, that is as soon as one of them is missing or holds a value that is not text,
the entry as a whole is rejected with at least one issue and no post data comes out.
An entry without title is rejected with the issue naming `title`. -/
theorem blogSchema_accepts_iff (raw : RawEntry) :
    ((∃ p, blog.schema raw = .ok p)
        ↔ ∀ k ∈ blogFields, ∃ s, raw.lookup k = some (Value.str s))
      ∧ ((∃ issues, blog.schema raw = .error issues ∧ issues ≠ [])
        ↔ ∃ k ∈ blogFields, ∀ s, raw.lookup k ≠ some (Value.str s))
      ∧ blog.schema [("description", .str "d"), ("date", .str "2024-01-01"),
            ("author", .str "Ada"), ("summary", .str "s")]
          = .error [⟨"title", "undefined"⟩] := by
  have hacc : (∃ p, blog.schema raw = .ok p)
      ↔ ∀ k ∈ blogFields, ∃ s, raw.lookup k = some (Value.str s) := by
    constructor
    · rintro ⟨p, hp⟩
      obtain ⟨h1, h2, h3, h4, h5⟩ := (blogSchema_ok_iff raw p).1 hp
      intro k hk
      simp only [blogFields, List.mem_cons, List.mem_singleton, List.not_mem_nil, or_false] at hk
      rcases hk with rfl | rfl | rfl | rfl | rfl
      · exact ⟨_, h1⟩
      · exact ⟨_, h2⟩
      · exact ⟨_, h3⟩
      · exact ⟨_, h4⟩
      · exact ⟨_, h5⟩
    · intro h
      obtain ⟨t, ht⟩ := h "title" (by simp [blogFields])
      obtain ⟨d, hd⟩ := h "description" (by simp [blogFields])
      obtain ⟨dt, hdt⟩ := h "date" (by simp [blogFields])
      obtain ⟨a, ha⟩ := h "author" (by simp [blogFields])
      obtain ⟨s, hs⟩ := h "summary" (by simp [blogFields])
      exact ⟨⟨t, d, dt, a, s⟩, (blogSchema_ok_iff raw _).2 ⟨ht, hd, hdt, ha, hs⟩⟩
  refine ⟨hacc, ?_, rfl⟩
  constructor
  · rintro ⟨issues, hi, _⟩
    by_contra hno
    push_neg at hno
    obtain ⟨p, hp⟩ := hacc.2 hno
    rw [hp] at hi
    cases hi
  · rintro ⟨k, hk, hbad⟩
    have hrej : ∀ p, blog.schema raw ≠ .ok p := by
      intro p hp
      obtain ⟨s, hs⟩ := hacc.1 ⟨p, hp⟩ k hk
      exact hbad s hs
    cases hres : blog.schema raw with
    | ok p => exact absurd hres (hrej p)
    | error issues => exact ⟨issues, rfl, blogSchema_error_nonempty raw issues hres⟩

/-- C9, as the code has it: every post that the schema accepts has a title that is a
text value, the one found under the key `title` of the raw entry; the schema sets no
minimum length, so that text may be empty. -/
theorem blogSchema_title_is_text (raw : RawEntry) (p : PostData)
    (h : blog.schema raw = .ok p) : raw.lookup "title" = some (Value.str p.title) :=
  ((blogSchema_ok_iff raw p).1 h).1

/-- C9 at an entry titled `Hello`. -/
theorem blogSchema_title_is_text_witness :
    blog.schema [("title", .str "Hello"), ("description", .str "d"), ("date", .str "2024-01-01"),
        ("author", .str "Ada"), ("summary", .str "s")]
      = .ok ⟨"Hello", "d", "2024-01-01", "Ada", "s"⟩
    ∧ List.lookup "title" [("title", Value.str "Hello"), ("description", .str "d"),
        ("date", .str "2024-01-01"), ("author", .str "Ada"), ("summary", .str "s")]
      = some (Value.str "Hello") :=
  ⟨rfl, blogSchema_title_is_text _ ⟨"Hello", "d", "2024-01-01", "Ada", "s"⟩ rfl⟩

/-- C9 fails as stated: the schema accepts an entry whose title is the empty text, and
the accepted post has an empty title. -/
theorem blogSchema_accepts_empty_title :
    ∃ p, blog.schema [("title", .str ""), ("description", .str "d"), ("date", .str "2024-01-01"),
        ("author", .str "Ada"), ("summary", .str "s")] = .ok p
      ∧ p.title = "" :=
  ⟨⟨"", "d", "2024-01-01", "Ada", "s"⟩, rfl, rfl⟩

/-! ## Feed document -/

/-- C7, as the code has it: in every feed that `GET` returns, the self link is `rss.xml`
resolved against the site, that is the origin of the site, the directory part of its
path and `rss.xml`; it is the same for every collection, all constants and every feed
library, so it depends on the site only. For a site whose path ends with a slash, a bare
origin included, it is the site base followed by `/rss.xml`. -/
theorem selfLink_of_site (lib : FeedLibrary) (c : Const)
    (getCollection : String → List Post) (site : URL) (feed : RSSOptions)
    (hget : GET lib c getCollection ⟨some site⟩ = .ok feed) :
    feed.customData
        = channelCustomData (site.origin ++ dirname site.pathname ++ "rss.xml")
      ∧ (∀ (otherLib : FeedLibrary) (otherConst : Const)
            (other : String → List Post) (feed2 : RSSOptions),
          GET otherLib otherConst other ⟨some site⟩ = .ok feed2 →
            feed2.customData = feed.customData)
      ∧ (site.pathname.data.getLast? = some '/' →
          feed.customData = channelCustomData (site.base ++ "/rss.xml")) := by
  have hres : (URL.resolve "rss.xml" site).href
      = site.origin ++ dirname site.pathname ++ "rss.xml" := by
    simp [URL.resolve, URL.href, String.append_assoc]
  obtain ⟨rfl, _⟩ := (GET_ok_iff _ _ _ _ _).1 hget
  refine ⟨?_, ?_, ?_⟩
  · show channelCustomData (URL.resolve "rss.xml" site).href = _
    rw [hres]
  · intro otherLib otherConst other feed2 hget2
    obtain ⟨rfl, _⟩ := (GET_ok_iff _ _ _ _ _).1 hget2
    rfl
  · intro hslash
    show channelCustomData (URL.resolve "rss.xml" site).href = _
    rw [hres, dirname_of_trailing_slash _ hslash]
    have hbase : site.base ++ "/rss.xml" = site.origin ++ site.pathname ++ "rss.xml" := by
      have h1 : site.base = site.origin ++ ⟨site.pathname.data.dropLast⟩ := by
        simp [URL.base, hslash]
      have h2 : ("/rss.xml" : String) = "/" ++ "rss.xml" := by decide
      rw [h1, h2, String.append_assoc, ← String.append_assoc _ "/" "rss.xml",
        dropLast_append_slash _ hslash, String.append_assoc]
    rw [hbase]

/-- C7 at the site `https://example.com` with one post: `GET` returns a feed and its self
link is `https://example.com/rss.xml`. -/
theorem selfLink_of_site_witness :
    GET ⟨fun date => date == "2024-01-01", fun _ => true⟩ ⟨"Flare Africa", "Community blog"⟩
        (fun _ => [⟨"my-post.md", "my-post", "", ⟨"t", "d", "2024-01-01", "Ada", "s"⟩⟩])
        ⟨some ⟨"https://example.com", "/"⟩⟩
      = .ok { title := "Flare Africa"
              description := "Community blog"
              site := ⟨"https://example.com", "/"⟩
              xmlns := [("atom", "http://www.w3.org/2005/Atom"),
                        ("dc", "http://purl.org/rss/1.0/modules/dc/")]
              customData := "<language>en-us</language>\n      <atom:link href=\"https://example.com/rss.xml\" rel=\"self\" type=\"application/rss+xml\" />"
              items := [toItem ⟨"my-post.md", "my-post", "", ⟨"t", "d", "2024-01-01", "Ada", "s"⟩⟩] }
    ∧ (⟨"https://example.com", "/"⟩ : URL).pathname.data.getLast? = some '/'
    ∧ channelCustomData ((⟨"https://example.com", "/"⟩ : URL).base ++ "/rss.xml")
      = "<language>en-us</language>\n      <atom:link href=\"https://example.com/rss.xml\" rel=\"self\" type=\"application/rss+xml\" />" := by
  have hget : GET ⟨fun date => date == "2024-01-01", fun _ => true⟩ ⟨"Flare Africa", "Community blog"⟩
      (fun _ => [⟨"my-post.md", "my-post", "", ⟨"t", "d", "2024-01-01", "Ada", "s"⟩⟩])
      ⟨some ⟨"https://example.com", "/"⟩⟩
    = .ok { title := "Flare Africa"
            description := "Community blog"
            site := ⟨"https://example.com", "/"⟩
            xmlns := [("atom", "http://www.w3.org/2005/Atom"),
                      ("dc", "http://purl.org/rss/1.0/modules/dc/")]
            customData := "<language>en-us</language>\n      <atom:link href=\"https://example.com/rss.xml\" rel=\"self\" type=\"application/rss+xml\" />"
            items := [toItem ⟨"my-post.md", "my-post", "", ⟨"t", "d", "2024-01-01", "Ada", "s"⟩⟩] } := by
    rw [GET_ok_iff]
    exact ⟨by decide, by decide⟩
  have h := selfLink_of_site _ _ _ _ _ hget
  exact ⟨hget, by decide, (h.2.2 (by decide)).symm⟩

/-- C7 fails as stated at the site `https://example.com/docs`: the self link is
`https://example.com/rss.xml`, not the site base followed by `/rss.xml`. -/
theorem selfLink_not_under_site_path :
    GET ⟨fun _ => true, fun _ => true⟩ ⟨"Flare Africa", "Community blog"⟩ (fun _ => [])
        ⟨some ⟨"https://example.com", "/docs"⟩⟩
      = .ok { title := "Flare Africa"
              description := "Community blog"
              site := ⟨"https://example.com", "/docs"⟩
              xmlns := [("atom", "http://www.w3.org/2005/Atom"),
                        ("dc", "http://purl.org/rss/1.0/modules/dc/")]
              customData := channelCustomData "https://example.com/rss.xml"
              items := [] }
    ∧ (⟨"https://example.com", "/docs"⟩ : URL).base ++ "/rss.xml"
        = "https://example.com/docs/rss.xml"
    ∧ (URL.resolve "rss.xml" ⟨"https://example.com", "/docs"⟩).href
        ≠ (⟨"https://example.com", "/docs"⟩ : URL).base ++ "/rss.xml" := by
  refine ⟨?_, by decide, by decide⟩
  rw [GET_ok_iff]
  exact ⟨by decide, by simp⟩

/-- C8: when the `blog` collection is empty, `GET` returns a feed (no error) with no
item, and that feed carries the document level fields: the site title, the site
description, the site, the `en-us` language tag and the self link, each of the two
custom elements being well formed in itself. -/
theorem GET_empty_collection (lib : FeedLibrary) (c : Const)
    (getCollection : String → List Post) (site : URL)
    (hempty : getCollection "blog" = []) :
    ∃ feed, GET lib c getCollection ⟨some site⟩ = .ok feed
      ∧ feed.items = []
      ∧ feed.title = c.SITE_TITLE
      ∧ feed.description = c.SITE_DESCRIPTION
      ∧ feed.site = site
      ∧ feed.customData
          = "<language>en-us</language>" ++ "\n      "
            ++ ("<atom:link href=\"" ++ (URL.resolve "rss.xml" site).href
                ++ "\" rel=\"self\" type=\"application/rss+xml\" />")
      ∧ wellFormedElement "<language>en-us</language>" = true := by
  have hget := (GET_ok_iff lib c getCollection site _).2
    ⟨rfl, by rw [hempty]; intro post hpost; cases hpost⟩
  refine ⟨_, hget, ?_, rfl, rfl, rfl, ?_, by decide⟩
  · show (getCollection "blog").map toItem = []
    rw [hempty]
    rfl
  · show channelCustomData _ = _
    simp only [channelCustomData]
    have h1 : ("<language>en-us</language>\n      <atom:link href=\"" : String)
        = "<language>en-us</language>" ++ "\n      " ++ "<atom:link href=\"" := by decide
    rw [h1]
    simp only [String.append_assoc]

/-- C8 at the site `https://example.com` with an empty store: the feed has no item and
its custom data are the language tag and the self link to `https://example.com/rss.xml`. -/
theorem GET_empty_collection_witness :
    (fun _ => [] : String → List Post) "blog" = []
      ∧ ∃ feed, GET ⟨fun _ => false, fun _ => false⟩ ⟨"Flare Africa", "Community blog"⟩ (fun _ => [])
            ⟨some ⟨"https://example.com", "/"⟩⟩ = .ok feed
          ∧ feed.items = []
          ∧ feed.title = "Flare Africa"
          ∧ feed.customData = "<language>en-us</language>\n      <atom:link href=\"https://example.com/rss.xml\" rel=\"self\" type=\"application/rss+xml\" />" := by
  obtain ⟨feed, hget, hitems, htitle, _, _, hdata, _⟩ :=
    GET_empty_collection ⟨fun _ => false, fun _ => false⟩ ⟨"Flare Africa", "Community blog"⟩ (fun _ => [])
      ⟨"https://example.com", "/"⟩ rfl
  exact ⟨rfl, feed, hget, hitems, htitle, hdata.trans (by decide)⟩

/-- C10: two collections that agree once the summaries of their posts are blanked give,
for the same feed library, the same constants and the same context, the same feed items
and the same result of `GET`: the summary of a post is not used. -/
theorem GET_ignores_summary (lib : FeedLibrary) (c : Const)
    (first second : String → List Post) (context : APIContext)
    (hsame : (first "blog").map eraseSummary = (second "blog").map eraseSummary) :
    (first "blog").map toItem = (second "blog").map toItem
      ∧ GET lib c first context = GET lib c second context := by
  have hitems : (first "blog").map toItem = (second "blog").map toItem := by
    have h := congrArg (List.map toItem) hsame
    simpa [List.map_map, Function.comp_def, toItem_eraseSummary] using h
  refine ⟨hitems, ?_⟩
  unfold GET
  cases context.site with
  | none => rfl
  | some site => simp only [hitems]

/-- C10 at two one-post collections that differ in the summary only. -/
theorem GET_ignores_summary_witness :
    ([⟨"my-post.md", "my-post", "", ⟨"t", "d", "2024-01-01", "Ada", "short"⟩⟩] : List Post).map
        eraseSummary
      = ([⟨"my-post.md", "my-post", "", ⟨"t", "d", "2024-01-01", "Ada", "another one"⟩⟩]
          : List Post).map eraseSummary
    ∧ GET ⟨fun date => date == "2024-01-01", fun _ => true⟩ ⟨"Flare Africa", "Community blog"⟩
        (fun _ => [⟨"my-post.md", "my-post", "", ⟨"t", "d", "2024-01-01", "Ada", "short"⟩⟩])
        ⟨some ⟨"https://example.com", "/"⟩⟩
      = GET ⟨fun date => date == "2024-01-01", fun _ => true⟩ ⟨"Flare Africa", "Community blog"⟩
        (fun _ => [⟨"my-post.md", "my-post", "", ⟨"t", "d", "2024-01-01", "Ada", "another one"⟩⟩])
        ⟨some ⟨"https://example.com", "/"⟩⟩ :=
  ⟨rfl, (GET_ignores_summary _ _ _ _ _ rfl).2⟩

/-! ## The creator element -/

theorem scanElement_text_step (fuel : Nat) (c : Char) (cs : List Char)
    (stack : List (List Char)) (h1 : c ≠ '<') (h2 : c ≠ '&') :
    scanElement (fuel + 1) (c :: cs) stack = (!stack.isEmpty && scanElement fuel cs stack) := by
  conv_lhs => unfold scanElement
  simp only [h1, h2, if_false]

theorem scanElement_text (text rest : List Char) (top : List Char) (below : List (List Char))
    (hplain : ∀ c ∈ text, c ≠ '<' ∧ c ≠ '&') (fuel : Nat) :
    scanElement (fuel + text.length) (text ++ rest) (top :: below)
      = scanElement fuel rest (top :: below) := by
  induction text with
  | nil => rfl
  | cons c cs ih =>
    have hc := hplain c (List.mem_cons_self c cs)
    have hcs : ∀ x ∈ cs, x ≠ '<' ∧ x ≠ '&' := fun x hx => hplain x (List.mem_cons_of_mem c hx)
    show scanElement ((fuel + cs.length) + 1) (c :: (cs ++ rest)) (top :: below) = _
    rw [scanElement_text_step _ _ _ _ hc.1 hc.2]
    simp only [List.isEmpty_cons, Bool.not_false, Bool.true_and]
    exact ih hcs

/-- The creator element of a post whose author contains neither `<` nor `&` is a
well-formed XML element. -/
theorem creator_tag_well_formed_of_plain (post : Post)
    (hplain : ∀ c ∈ post.data.author.data, c ≠ '<' ∧ c ≠ '&') :
    wellFormedElement (toItem post).customData = true := by
  have hdata : (toItem post).customData.data
      = '<' :: ("dc:creator".data ++ '>' :: (post.data.author.data ++ "</dc:creator>".data)) := by
    simp [toItem, String.data_append]
  have hlen : (toItem post).customData.data.length + 1
      = (25 + post.data.author.data.length) + 1 := by
    rw [hdata]
    simp
    omega
  unfold wellFormedElement
  rw [hlen, hdata]
  conv_lhs => unfold scanElement
  simp [List.span, List.span.loop]
  refine ⟨by decide, ?_⟩
  show scanElement (25 + post.data.author.data.length) _ _ = true
  rw [scanElement_text _ _ _ _ hplain 25]
  decide

/-- C6 at a post whose author is written `Ada <ada@example.com>`: the creator element
that `GET` builds holds the author verbatim and is not a well-formed XML element,
whereas the element built for the author `Ada` is. -/
theorem creator_tag_not_well_formed :
    (toItem ⟨"hello.md", "hello", "", ⟨"Hello", "d", "2024-01-01", "Ada <ada@example.com>", "s"⟩⟩).customData
        = "<dc:creator>Ada <ada@example.com></dc:creator>"
      ∧ wellFormedElement
          (toItem ⟨"hello.md", "hello", "", ⟨"Hello", "d", "2024-01-01", "Ada <ada@example.com>", "s"⟩⟩).customData
        = false
      ∧ wellFormedElement
          (toItem ⟨"hello.md", "hello", "", ⟨"Hello", "d", "2024-01-01", "Ada", "s"⟩⟩).customData
        = true := by
  decide

end FlareBlog
